import Mathlib

/-!
# Verification development for `src/nanobind_context.cpp`

The file registers the class `BLContext` with the host (Python) runtime.  Every
bound method is a lambda that forwards to a method of the native drawing
context.  The development has three layers:

* the data that crosses the boundary (host objects, native argument types);
* the native drawing context as an interface `Engine`, with two instances: a
  recording engine that only logs the native calls it receives, and a reference
  engine for the behaviour the specification ascribes to the native context;
* the bound lambdas of `register_context`, written against the interface, and
  the overload resolution that selects them.

A C++ `double` is modelled as an exact rational number; rounding, infinities and
NaN are outside the model.
-/

namespace Blend2D

/-- C++ `double`, modelled exactly. -/
abbrev Dbl := ℚ

/-- Modelled from the spec: the native result type `BLResult` (declared in the
native headers, which are not part of the sources), the status code every
native command returns. -/
abbrev BLResult := Nat

/-- Modelled from the spec: the native success code (declared in the native
headers); every other code reports a failure. -/
def BL_SUCCESS : BLResult := 0

/-! The native argument types below are declared in the native headers, which
are not part of the sources.  The binding passes their values through
unchanged, so only their identity matters; the geometric types carry their
coordinates. -/

/-- Modelled from the spec: the native point type (native headers), a
destination point. -/
structure BLPoint where
  x : Dbl
  y : Dbl
  deriving DecidableEq, Repr

/-- Modelled from the spec: the native rectangle type (native headers), a
destination or clip rectangle. -/
structure BLRect where
  x : Dbl
  y : Dbl
  w : Dbl
  h : Dbl
  deriving DecidableEq, Repr

/-- Modelled from the spec: the native integer rectangle type (native
headers), a source sub-rectangle of an image. -/
structure BLRectI where
  x : Int
  y : Int
  w : Int
  h : Int
  deriving DecidableEq, Repr

/-- Modelled from the spec: the native transform matrix type (native headers),
the affine matrix `[m00 m01; m10 m11; m20 m21]` acting on row vectors. -/
structure BLMatrix2D where
  m00 : Dbl
  m01 : Dbl
  m10 : Dbl
  m11 : Dbl
  m20 : Dbl
  m21 : Dbl
  deriving DecidableEq, Repr

/-- Modelled from the spec: the native image type (native headers), as a
handle. -/
structure BLImage where
  id : Nat
  deriving DecidableEq, Repr

/-- Modelled from the spec: the native gradient type (native headers), as a
handle. -/
structure BLGradient where
  id : Nat
  deriving DecidableEq, Repr

/-- Modelled from the spec: the native pattern type (native headers), as a
handle. -/
structure BLPattern where
  id : Nat
  deriving DecidableEq, Repr

/-- Modelled from the spec: the native path type (native headers), as a
handle. -/
structure BLPath where
  id : Nat
  deriving DecidableEq, Repr

/-- Modelled from the spec: the native font type (native headers), as a
handle. -/
structure BLFont where
  id : Nat
  deriving DecidableEq, Repr

/-- Modelled from the spec: the native packed colour type `BLRgba32` (native
headers), one 32-bit RGBA value. -/
structure BLRgba32 where
  value : Nat
  deriving DecidableEq, Repr

/-- Modelled from the spec: the native composition operator enumeration
(native headers), by member code. -/
structure BLCompOp where
  code : Nat
  deriving DecidableEq, Repr

/-- Modelled from the spec: the native fill rule enumeration (native headers),
by member code. -/
structure BLFillRule where
  code : Nat
  deriving DecidableEq, Repr

/-- Modelled from the spec: the native stroke join enumeration (native
headers), by member code. -/
structure BLStrokeJoin where
  code : Nat
  deriving DecidableEq, Repr

/-- Modelled from the spec: the native stroke cap enumeration (native headers),
by member code. -/
structure BLStrokeCap where
  code : Nat
  deriving DecidableEq, Repr

/-- Modelled from the spec: the native stroke cap position enumeration (native
headers), by member code. -/
structure BLStrokeCapPosition where
  code : Nat
  deriving DecidableEq, Repr

/-- Modelled from the spec: the flush modes of the native `flush` (declared in
the native headers): the synchronous mode, which the binding names, and the
mode without it. -/
inductive BLContextFlushFlags where
  | BL_CONTEXT_FLUSH_NO_FLAGS
  | BL_CONTEXT_FLUSH_SYNC
  deriving DecidableEq, Repr

/-- Modelled from the spec: the operation codes of the native
`_applyTransformOp` (declared in the native headers); the binding names
`BL_TRANSFORM_OP_ROTATE_PT`. -/
inductive BLTransformOp where
  | BL_TRANSFORM_OP_RESET
  | BL_TRANSFORM_OP_ASSIGN
  | BL_TRANSFORM_OP_TRANSLATE
  | BL_TRANSFORM_OP_SCALE
  | BL_TRANSFORM_OP_SKEW
  | BL_TRANSFORM_OP_ROTATE
  | BL_TRANSFORM_OP_ROTATE_PT
  | BL_TRANSFORM_OP_TRANSFORM
  deriving DecidableEq, Repr

/-- The native commands the binding invokes on `BLContext`: one constructor per
native method (and per native overload, for the overloaded `setFillStyle`,
`setStrokeStyle` and `blitImage`).  Each returns a `BLResult`. -/
inductive NativeCall where
  | end_
  | reset
  | save
  | restore
  | clearAll
  | fillAll
  | flush (flags : BLContextFlushFlags)
  | clipToRect (rect : BLRect)
  | restoreClipping
  | resetTransform
  | rotate (angle : Dbl)
  | _applyTransformOp (op : BLTransformOp) (values : List Dbl)
  | scale (x y : Dbl)
  | skew (x y : Dbl)
  | setTransform (matrix : BLMatrix2D)
  | translate (x y : Dbl)
  | userToMeta
  | setCompOp (op : BLCompOp)
  | setGlobalAlpha (alpha : Dbl)
  | setFillAlpha (alpha : Dbl)
  | setFillRule (rule : BLFillRule)
  | setFillStyleRgba32 (color : BLRgba32)
  | setFillStyleGradient (gradient : BLGradient)
  | setFillStylePattern (pattern : BLPattern)
  | setStrokeAlpha (alpha : Dbl)
  | setStrokeStyleRgba32 (color : BLRgba32)
  | setStrokeStyleGradient (gradient : BLGradient)
  | setStrokeStylePattern (pattern : BLPattern)
  | setStrokeWidth (width : Dbl)
  | setStrokeMiterLimit (limit : Dbl)
  | setStrokeCap (position : BLStrokeCapPosition) (cap : BLStrokeCap)
  | setStrokeCaps (cap : BLStrokeCap)
  | setStrokeJoin (join : BLStrokeJoin)
  | setStrokeDashOffset (offset : Dbl)
  | setStrokeDashArray (array : List Dbl)
  | clearRect (rect : BLRect)
  | fillRect (rect : BLRect)
  | strokeRect (rect : BLRect)
  | fillCircle (cx cy r : Dbl)
  | strokeCircle (cx cy r : Dbl)
  | fillEllipse (cx cy rx ry : Dbl)
  | strokeEllipse (cx cy rx ry : Dbl)
  | fillPath (path : BLPath)
  | strokePath (path : BLPath)
  | fillUtf8Text (pt : BLPoint) (font : BLFont) (text : String) (size : Nat)
  | strokeUtf8Text (pt : BLPoint) (font : BLFont) (text : String) (size : Nat)
  | blitImagePt (pt : BLPoint) (image : BLImage)
  | blitImagePtArea (pt : BLPoint) (image : BLImage) (area : BLRectI)
  | blitImageRect (rect : BLRect) (image : BLImage)
  | blitImageRectArea (rect : BLRect) (image : BLImage) (area : BLRectI)
  deriving Repr

/-- The native drawing context as the binding sees it: two constructors, the
commands (each returning its `BLResult` and the next state) and the getters. -/
structure Engine (σ : Type) where
  create : σ
  createFor : BLImage → σ
  exec : NativeCall → σ → BLResult × σ
  metaTransform : σ → BLMatrix2D
  userTransform : σ → BLMatrix2D
  compOp : σ → BLCompOp
  globalAlpha : σ → Dbl
  fillAlpha : σ → Dbl
  fillRule : σ → BLFillRule
  strokeAlpha : σ → Dbl
  strokeWidth : σ → Dbl
  strokeMiterLimit : σ → Dbl
  strokeJoin : σ → BLStrokeJoin
  strokeDashOffset : σ → Dbl

/-! ## Host side -/

/-- Errors the host can see. -/
inductive PyErr where
  | TypeError
  | AttributeError
  | ValueError
  | RuntimeError (code : Nat)
  deriving DecidableEq, Repr

/-- Elements of a host tuple. -/
inductive PyAtom where
  | none
  | int (n : Int)
  | float (d : Dbl)
  | str (s : String)
  deriving DecidableEq, Repr

/-- Host objects that can reach the binding.  `self` is the context object the
method was called on. -/
inductive PyObj where
  | none
  | bool (b : Bool)
  | int (n : Int)
  | float (d : Dbl)
  | str (s : String)
  | tuple (items : List PyAtom)
  | exc (e : PyErr)
  | excType (e : PyErr)
  | traceback (n : Nat)
  | self
  | point (p : BLPoint)
  | rect (r : BLRect)
  | rectI (r : BLRectI)
  | matrix (m : BLMatrix2D)
  | image (i : BLImage)
  | gradient (g : BLGradient)
  | pattern (p : BLPattern)
  | path (p : BLPath)
  | font (f : BLFont)
  | array (a : List Dbl)
  | compOp (v : BLCompOp)
  | fillRule (v : BLFillRule)
  | strokeJoin (v : BLStrokeJoin)
  | strokeCap (v : BLStrokeCap)
  | strokeCapPosition (v : BLStrokeCapPosition)
  deriving DecidableEq, Repr

/-- What a host call produces: a value, or a raised error. -/
inductive Outcome where
  | returned (v : PyObj)
  | raised (e : PyErr)
  deriving DecidableEq, Repr

/-- A bound call, once resolved: it acts on the native context and produces an
outcome. -/
abbrev Bound (σ : Type) := σ → Outcome × σ

/-- The native getters the binding reads. -/
inductive Getter where
  | metaTransform
  | userTransform
  | compOp
  | globalAlpha
  | fillAlpha
  | fillRule
  | strokeAlpha
  | strokeWidth
  | strokeMiterLimit
  | strokeJoin
  | strokeDashOffset
  deriving DecidableEq, Repr

/-- What a lambda hands back to the host: nothing (a `void` lambda, seen as
`None`), the context itself (`return &self`), or the value of a native getter. -/
inductive Ret where
  | void
  | self
  | value (g : Getter)
  deriving DecidableEq, Repr

/-- The body of a bound lambda.  Every body in `register_context` is straight
line code: the native commands it issues, in order, each as an expression
statement whose `BLResult` is not looked at, followed by what it returns. -/
structure Lambda where
  calls : List NativeCall
  ret : Ret

/-- The names registered with `.def`. -/
inductive Method where
  | __del__
  | __enter__
  | __exit__
  | clear_all
  | fill_all
  | flush
  | restore
  | save
  | clip_to_rect
  | restore_clipping
  | get_meta_transform
  | get_user_transform
  | reset_transform
  | rotate
  | rotate_around
  | scale
  | skew
  | transform
  | translate
  | user_to_meta
  | set_fill_style
  | set_stroke_style
  | set_stroke_cap
  | set_stroke_caps
  | set_stroke_dash_array
  | clear_rect
  | fill_rect
  | stroke_rect
  | fill_circle
  | stroke_circle
  | fill_ellipse
  | stroke_ellipse
  | fill_path
  | stroke_path
  | fill_text
  | stroke_text
  | blit_image
  deriving DecidableEq, Repr

/-- The names registered with `.def_prop_rw`. -/
inductive Property where
  | comp_op
  | global_alpha
  | fill_alpha
  | fill_rule
  | stroke_alpha
  | stroke_width
  | stroke_miter_limit
  | stroke_join
  | stroke_dash_offset
  deriving DecidableEq, Repr

/-- What the host can do with a context object. -/
inductive HostOp where
  | call (m : Method) (args : List PyObj)
  | getattr (p : Property)
  | setattr (p : Property) (v : PyObj)
  deriving DecidableEq, Repr

/-- The part of `nanobind_common.h` the lambdas use.  The header is not part of
the sources at hand, so the helper is a parameter: it maps a host tuple to a
number or raises. -/
structure Common where
  _get_rgba32_value : List PyAtom → Except PyErr Nat

/-! ### Argument conversion

One function per parameter type of the lambdas.  A `double` parameter accepts a
host float and, by implicit conversion, a host integer or boolean; every other
parameter accepts only an object of its own bound type.  No two overloads of
one name differ in a `double` parameter, so trying the overloads once, with
implicit conversion allowed, selects the same overload as trying them first
without and then with it.

The host's `None` is accepted by no parameter: the binding library rejects a
`None` argument unless the parameter is annotated `.none()`, and no parameter
in `register_context` is. -/

def asDouble : PyObj → Option Dbl
  | .float d => some d
  | .int n => some (n : ℚ)
  | .bool b => some (if b then 1 else 0)
  | _ => none

/-- An `nb::object` parameter takes any host object, except `None`, which it
rejects like every parameter without a `.none()` annotation. -/
def asObject : PyObj → Option PyObj
  | .none => none
  | o => some o

def asString : PyObj → Option String
  | .str s => some s
  | _ => none

def asTuple : PyObj → Option (List PyAtom)
  | .tuple t => some t
  | _ => none

def asPoint : PyObj → Option BLPoint
  | .point p => some p
  | _ => none

def asRect : PyObj → Option BLRect
  | .rect r => some r
  | _ => none

def asRectI : PyObj → Option BLRectI
  | .rectI r => some r
  | _ => none

def asMatrix : PyObj → Option BLMatrix2D
  | .matrix m => some m
  | _ => none

def asImage : PyObj → Option BLImage
  | .image i => some i
  | _ => none

def asGradient : PyObj → Option BLGradient
  | .gradient g => some g
  | _ => none

def asPattern : PyObj → Option BLPattern
  | .pattern p => some p
  | _ => none

def asPath : PyObj → Option BLPath
  | .path p => some p
  | _ => none

def asFont : PyObj → Option BLFont
  | .font f => some f
  | _ => none

def asArray : PyObj → Option (List Dbl)
  | .array a => some a
  | _ => none

def asCompOp : PyObj → Option BLCompOp
  | .compOp v => some v
  | _ => none

def asFillRule : PyObj → Option BLFillRule
  | .fillRule v => some v
  | _ => none

def asStrokeJoin : PyObj → Option BLStrokeJoin
  | .strokeJoin v => some v
  | _ => none

def asStrokeCap : PyObj → Option BLStrokeCap
  | .strokeCap v => some v
  | _ => none

def asStrokeCapPosition : PyObj → Option BLStrokeCapPosition
  | .strokeCapPosition v => some v
  | _ => none

/-- One `.def`: it either does not accept the arguments (`none`), or accepts
them and runs its body, which yields the native calls to make or raises before
making any. -/
abbrev Overload := List PyObj → Option (Except PyErr Lambda)

/-- A `void` lambda whose body is the single native call `c`. -/
def forward (c : NativeCall) : Except PyErr Lambda :=
  .ok { calls := [c], ret := .void }

/-- The overloads registered under each method name, in the order of their
`.def` lines in `register_context`. -/
def overloads (H : Common) : Method → List Overload
  | .__del__ => [fun
      | [] => some (.ok { calls := [.end_, .reset], ret := .void })
      | _ => none]
  | .__enter__ => [fun
      | [] => some (.ok { calls := [.save], ret := .self })
      | _ => none]
  | .__exit__ => [fun
      | [exc_type, exc_value, traceback] => do
          let _exc_type ← asObject exc_type
          let _exc_value ← asObject exc_value
          let _traceback ← asObject traceback
          pure (forward .restore)
      | _ => none]
  | .clear_all => [fun
      | [] => some (forward .clearAll)
      | _ => none]
  | .fill_all => [fun
      | [] => some (forward .fillAll)
      | _ => none]
  | .flush => [fun
      | [] => some (forward (.flush .BL_CONTEXT_FLUSH_SYNC))
      | _ => none]
  | .restore => [fun
      | [] => some (forward .restore)
      | _ => none]
  | .save => [fun
      | [] => some (forward .save)
      | _ => none]
  | .clip_to_rect => [fun
      | [rect] => do
          let rect ← asRect rect
          pure (forward (.clipToRect rect))
      | _ => none]
  | .restore_clipping => [fun
      | [] => some (forward .restoreClipping)
      | _ => none]
  | .get_meta_transform => [fun
      | [] => some (.ok { calls := [], ret := .value .metaTransform })
      | _ => none]
  | .get_user_transform => [fun
      | [] => some (.ok { calls := [], ret := .value .userTransform })
      | _ => none]
  | .reset_transform => [fun
      | [] => some (forward .resetTransform)
      | _ => none]
  | .rotate => [fun
      | [angle] => do
          let angle ← asDouble angle
          pure (forward (.rotate angle))
      | _ => none]
  | .rotate_around => [fun
      | [angle, x, y] => do
          let angle ← asDouble angle
          let x ← asDouble x
          let y ← asDouble y
          let values := [angle, x, y]
          pure (forward (._applyTransformOp .BL_TRANSFORM_OP_ROTATE_PT values))
      | _ => none]
  | .scale => [fun
      | [x, y] => do
          let x ← asDouble x
          let y ← asDouble y
          pure (forward (.scale x y))
      | _ => none]
  | .skew => [fun
      | [x, y] => do
          let x ← asDouble x
          let y ← asDouble y
          pure (forward (.skew x y))
      | _ => none]
  | .transform => [fun
      | [matrix] => do
          let matrix ← asMatrix matrix
          pure (forward (.setTransform matrix))
      | _ => none]
  | .translate => [fun
      | [x, y] => do
          let x ← asDouble x
          let y ← asDouble y
          pure (forward (.translate x y))
      | _ => none]
  | .user_to_meta => [fun
      | [] => some (forward .userToMeta)
      | _ => none]
  | .set_fill_style => [
      fun
      | [color] => do
          let color ← asTuple color
          pure (do
            let packed := (← H._get_rgba32_value color) % 2 ^ 32
            forward (.setFillStyleRgba32 ⟨packed⟩))
      | _ => none,
      fun
      | [gradient] => do
          let gradient ← asGradient gradient
          pure (forward (.setFillStyleGradient gradient))
      | _ => none,
      fun
      | [pattern] => do
          let pattern ← asPattern pattern
          pure (forward (.setFillStylePattern pattern))
      | _ => none]
  | .set_stroke_style => [
      fun
      | [color] => do
          let color ← asTuple color
          pure (do
            let packed := (← H._get_rgba32_value color) % 2 ^ 32
            forward (.setStrokeStyleRgba32 ⟨packed⟩))
      | _ => none,
      fun
      | [gradient] => do
          let gradient ← asGradient gradient
          pure (forward (.setStrokeStyleGradient gradient))
      | _ => none,
      fun
      | [pattern] => do
          let pattern ← asPattern pattern
          pure (forward (.setStrokeStylePattern pattern))
      | _ => none]
  | .set_stroke_cap => [fun
      | [position, cap] => do
          let position ← asStrokeCapPosition position
          let cap ← asStrokeCap cap
          pure (forward (.setStrokeCap position cap))
      | _ => none]
  | .set_stroke_caps => [fun
      | [cap] => do
          let cap ← asStrokeCap cap
          pure (forward (.setStrokeCaps cap))
      | _ => none]
  | .set_stroke_dash_array => [fun
      | [array] => do
          let array ← asArray array
          pure (forward (.setStrokeDashArray array))
      | _ => none]
  | .clear_rect => [fun
      | [rect] => do
          let rect ← asRect rect
          pure (forward (.clearRect rect))
      | _ => none]
  | .fill_rect => [fun
      | [rect] => do
          let rect ← asRect rect
          pure (forward (.fillRect rect))
      | _ => none]
  | .stroke_rect => [fun
      | [rect] => do
          let rect ← asRect rect
          pure (forward (.strokeRect rect))
      | _ => none]
  | .fill_circle => [fun
      | [cx, cy, r] => do
          let cx ← asDouble cx
          let cy ← asDouble cy
          let r ← asDouble r
          pure (forward (.fillCircle cx cy r))
      | _ => none]
  | .stroke_circle => [fun
      | [cx, cy, r] => do
          let cx ← asDouble cx
          let cy ← asDouble cy
          let r ← asDouble r
          pure (forward (.strokeCircle cx cy r))
      | _ => none]
  | .fill_ellipse => [fun
      | [cx, cy, rx, ry] => do
          let cx ← asDouble cx
          let cy ← asDouble cy
          let rx ← asDouble rx
          let ry ← asDouble ry
          pure (forward (.fillEllipse cx cy rx ry))
      | _ => none]
  | .stroke_ellipse => [fun
      | [cx, cy, rx, ry] => do
          let cx ← asDouble cx
          let cy ← asDouble cy
          let rx ← asDouble rx
          let ry ← asDouble ry
          pure (forward (.strokeEllipse cx cy rx ry))
      | _ => none]
  | .fill_path => [fun
      | [path] => do
          let path ← asPath path
          pure (forward (.fillPath path))
      | _ => none]
  | .stroke_path => [fun
      | [path] => do
          let path ← asPath path
          pure (forward (.strokePath path))
      | _ => none]
  | .fill_text => [fun
      | [pt, font, text] => do
          let pt ← asPoint pt
          let font ← asFont font
          let text ← asString text
          pure (forward (.fillUtf8Text pt font text text.utf8ByteSize))
      | _ => none]
  | .stroke_text => [fun
      | [pt, font, text] => do
          let pt ← asPoint pt
          let font ← asFont font
          let text ← asString text
          pure (forward (.strokeUtf8Text pt font text text.utf8ByteSize))
      | _ => none]
  | .blit_image => [
      fun
      | [pt, image] => do
          let pt ← asPoint pt
          let image ← asImage image
          pure (forward (.blitImagePt pt image))
      | _ => none,
      fun
      | [pt, image, area] => do
          let pt ← asPoint pt
          let image ← asImage image
          let area ← asRectI area
          pure (forward (.blitImagePtArea pt image area))
      | _ => none,
      fun
      | [rect, image] => do
          let rect ← asRect rect
          let image ← asImage image
          pure (forward (.blitImageRect rect image))
      | _ => none,
      fun
      | [rect, image, area] => do
          let rect ← asRect rect
          let image ← asImage image
          let area ← asRectI area
          pure (forward (.blitImageRectArea rect image area))
      | _ => none]

/-- The getter lambda of each `.def_prop_rw`. -/
def getter : Property → Lambda
  | .comp_op => { calls := [], ret := .value .compOp }
  | .global_alpha => { calls := [], ret := .value .globalAlpha }
  | .fill_alpha => { calls := [], ret := .value .fillAlpha }
  | .fill_rule => { calls := [], ret := .value .fillRule }
  | .stroke_alpha => { calls := [], ret := .value .strokeAlpha }
  | .stroke_width => { calls := [], ret := .value .strokeWidth }
  | .stroke_miter_limit => { calls := [], ret := .value .strokeMiterLimit }
  | .stroke_join => { calls := [], ret := .value .strokeJoin }
  | .stroke_dash_offset => { calls := [], ret := .value .strokeDashOffset }

/-- The setter lambda of each `.def_prop_rw`, after conversion of the assigned
value to the setter's parameter type. -/
def setter : Property → PyObj → Option (Except PyErr Lambda)
  | .comp_op, v => do
      let op ← asCompOp v
      pure (forward (.setCompOp op))
  | .global_alpha, v => do
      let alpha ← asDouble v
      pure (forward (.setGlobalAlpha alpha))
  | .fill_alpha, v => do
      let alpha ← asDouble v
      pure (forward (.setFillAlpha alpha))
  | .fill_rule, v => do
      let rule ← asFillRule v
      pure (forward (.setFillRule rule))
  | .stroke_alpha, v => do
      let alpha ← asDouble v
      pure (forward (.setStrokeAlpha alpha))
  | .stroke_width, v => do
      let width ← asDouble v
      pure (forward (.setStrokeWidth width))
  | .stroke_miter_limit, v => do
      let limit ← asDouble v
      pure (forward (.setStrokeMiterLimit limit))
  | .stroke_join, v => do
      let join ← asStrokeJoin v
      pure (forward (.setStrokeJoin join))
  | .stroke_dash_offset, v => do
      let offset ← asDouble v
      pure (forward (.setStrokeDashOffset offset))

/-- Overload resolution: the first overload, in registration order, that accepts
the arguments. -/
def firstAccepting (args : List PyObj) : List Overload → Option (Except PyErr Lambda)
  | [] => none
  | o :: rest =>
    match o args with
    | some r => some r
    | none => firstAccepting args rest

/-- Resolution of a host operation to the lambda body that runs: `none` when no
registered lambda accepts the arguments (the host sees a `TypeError`). -/
def resolve (H : Common) : HostOp → Option (Except PyErr Lambda)
  | .call m args => firstAccepting args (overloads H m)
  | .getattr p => some (.ok (getter p))
  | .setattr p v => setter p v

/-- The value a native getter yields, as a host object. -/
def Engine.read {σ : Type} (E : Engine σ) : Getter → σ → PyObj
  | .metaTransform, s => .matrix (E.metaTransform s)
  | .userTransform, s => .matrix (E.userTransform s)
  | .compOp, s => .compOp (E.compOp s)
  | .globalAlpha, s => .float (E.globalAlpha s)
  | .fillAlpha, s => .float (E.fillAlpha s)
  | .fillRule, s => .fillRule (E.fillRule s)
  | .strokeAlpha, s => .float (E.strokeAlpha s)
  | .strokeWidth, s => .float (E.strokeWidth s)
  | .strokeMiterLimit, s => .float (E.strokeMiterLimit s)
  | .strokeJoin, s => .strokeJoin (E.strokeJoin s)
  | .strokeDashOffset, s => .float (E.strokeDashOffset s)

/-- Native commands issued one after the other; the `BLResult` of each is
dropped, as in every lambda of the file. -/
def Engine.execAll {σ : Type} (E : Engine σ) : List NativeCall → σ → σ
  | [], s => s
  | c :: rest, s => E.execAll rest (E.exec c s).2

/-- Running a lambda body on a context. -/
def Lambda.run {σ : Type} (E : Engine σ) (lam : Lambda) : Bound σ := fun self =>
  let self1 := E.execAll lam.calls self
  match lam.ret with
  | .void => (.returned .none, self1)
  | .self => (.returned .self, self1)
  | .value g => (.returned (E.read g self1), self1)

/-- A host operation on a context, end to end. -/
def invoke {σ : Type} (E : Engine σ) (H : Common) (op : HostOp) : Bound σ := fun self =>
  match resolve H op with
  | none => (.raised .TypeError, self)
  | some (.error e) => (.raised e, self)
  | some (.ok lam) => lam.run E self

/-- The two `nb::init` constructors: no argument, or one image. -/
def construct {σ : Type} (E : Engine σ) : List PyObj → Option σ
  | [] => some E.create
  | [image] => do
      let image ← asImage image
      pure (E.createFor image)
  | _ => none

/-! ### The host's scoped block

`with ctx: body` calls `__enter__`, runs the body, and calls `__exit__` with the
error triple of the body (three `None` when the body finished normally).  The
error of the body is swallowed exactly when `__exit__` returns a true value. -/

/-- A statement of a scope body: an operation on the context, or a `raise`. -/
inductive Stmt where
  | op (o : HostOp)
  | raise (e : PyErr)
  deriving DecidableEq, Repr

/-- Truth value of a host object, for the objects the binding can return. -/
def truthy : PyObj → Bool
  | .none => false
  | .bool b => b
  | .int n => n != 0
  | .float d => d != 0
  | .str s => s != ""
  | .tuple t => !t.isEmpty
  | .array a => !a.isEmpty
  | _ => true

/-- Statements run in order; the first one that raises ends the body. -/
def runBody {σ : Type} (E : Engine σ) (H : Common) : List Stmt → σ → Option PyErr × σ
  | [], s => (none, s)
  | .raise e :: _, s => (some e, s)
  | .op o :: rest, s =>
    match invoke E H o s with
    | (.raised e, s1) => (some e, s1)
    | (.returned _, s1) => runBody E H rest s1

/-- The scoped block `with ctx: body`. -/
def withStmt {σ : Type} (E : Engine σ) (H : Common) (body : List Stmt) : Bound σ := fun s =>
  match invoke E H (.call .__enter__ []) s with
  | (.raised e, s1) => (.raised e, s1)
  | (.returned _, s1) =>
    match runBody E H body s1 with
    | (none, s2) =>
      match invoke E H (.call .__exit__ [.none, .none, .none]) s2 with
      | (.raised e, s3) => (.raised e, s3)
      | (.returned _, s3) => (.returned .none, s3)
    | (some e, s2) =>
      match invoke E H (.call .__exit__ [.excType e, .exc e, .traceback 0]) s2 with
      | (.raised e1, s3) => (.raised e1, s3)
      | (.returned v, s3) => if truthy v then (.returned .none, s3) else (.raised e, s3)

/-! ## Engines -/

/-- The recording engine: its state is the list of native calls received so
far, every call succeeds, and the getters return fixed values. -/
def traceEngine : Engine (List NativeCall) where
  create := []
  createFor := fun _ => []
  exec := fun c log => (BL_SUCCESS, log ++ [c])
  metaTransform := fun _ => ⟨1, 0, 0, 1, 0, 0⟩
  userTransform := fun _ => ⟨1, 0, 0, 1, 0, 0⟩
  compOp := fun _ => ⟨0⟩
  globalAlpha := fun _ => 1
  fillAlpha := fun _ => 1
  fillRule := fun _ => ⟨0⟩
  strokeAlpha := fun _ => 1
  strokeWidth := fun _ => 1
  strokeMiterLimit := fun _ => 4
  strokeJoin := fun _ => ⟨0⟩
  strokeDashOffset := fun _ => 0

/-- An engine with the same states, transitions and getters as `E`, but whose
commands report the result codes chosen by `r`. -/
def Engine.withResults {σ : Type} (E : Engine σ) (r : NativeCall → σ → BLResult) : Engine σ :=
  { E with exec := fun c s => (r c s, (E.exec c s).2) }

/-- The recording engine with every native call reporting a failure code. -/
def failingEngine : Engine (List NativeCall) :=
  traceEngine.withResults fun _ _ => 1

/-- The native calls a host operation issues: its run on the recording engine. -/
def nativeCalls (H : Common) (op : HostOp) : List NativeCall :=
  (invoke traceEngine H op []).2

/-! ### The reference engine

The native rendering library is not part of the sources at hand.  Its drawing
context is modelled here from what the specification says about it: a render
target binding plus a stack of graphics state, a user transform on top of a meta
transform, paint operations that are queued until a synchronous flush completes
them, and failures reported as result codes. -/

/-- Modelled from the spec: a failure code of the native engine for a value it
rejects (the native result codes are not part of the sources; only that the
code differs from `BL_SUCCESS` matters). -/
def BL_ERROR_INVALID_VALUE : BLResult := 0x10001

/-- Modelled from the spec: the failure code of the native engine for a call
made in an invalid state (the native result codes are not part of the sources;
only that the code differs from `BL_SUCCESS` matters). -/
def BL_ERROR_INVALID_STATE : BLResult := 0x10002

/-- Modelled from the spec: a style value of the native engine, a tagged union
of a solid colour, a gradient and a pattern. -/
inductive Style where
  | solid (color : BLRgba32)
  | gradient (g : BLGradient)
  | pattern (p : BLPattern)
  deriving DecidableEq, Repr

/-- Modelled from the spec: the identity transform of the native matrix type. -/
def BLMatrix2D.identity : BLMatrix2D := ⟨1, 0, 0, 1, 0, 0⟩

/-- Modelled from the spec: the product of two native matrices, `a` applied
first, then `b` (row-vector convention). -/
def BLMatrix2D.mul (a b : BLMatrix2D) : BLMatrix2D :=
  { m00 := a.m00 * b.m00 + a.m01 * b.m10
    m01 := a.m00 * b.m01 + a.m01 * b.m11
    m10 := a.m10 * b.m00 + a.m11 * b.m10
    m11 := a.m10 * b.m01 + a.m11 * b.m11
    m20 := a.m20 * b.m00 + a.m21 * b.m10 + b.m20
    m21 := a.m20 * b.m01 + a.m21 * b.m11 + b.m21 }

/-- Modelled from the spec: the graphics state of the native context
(transforms, clip, composition operator, alpha values, fill rule, styles and
stroke parameters). -/
structure State where
  metaTransform : BLMatrix2D
  userTransform : BLMatrix2D
  clip : List BLRect
  compOp : BLCompOp
  globalAlpha : Dbl
  fillAlpha : Dbl
  fillRule : BLFillRule
  fillStyle : Style
  strokeAlpha : Dbl
  strokeStyle : Style
  strokeWidth : Dbl
  strokeMiterLimit : Dbl
  strokeStartCap : BLStrokeCap
  strokeEndCap : BLStrokeCap
  strokeJoin : BLStrokeJoin
  strokeDashOffset : Dbl
  strokeDashArray : List Dbl
  deriving DecidableEq, Repr

/-- Modelled from the spec: what the specification leaves open about the native
library (which is not part of the sources): the trigonometric functions its
transform operations use, and the graphics state of a freshly constructed
context.  They are parameters of the reference engine. -/
structure NativeParams where
  sin : Dbl → Dbl
  cos : Dbl → Dbl
  tan : Dbl → Dbl
  initial : State

/-- Modelled from the spec: the native transform operations, by operation code
and operand array.  Each of translate, scale, skew and rotate applies its
elementary matrix before the current one; the rotate-about-point operation
takes (angle, pivot-x, pivot-y) and rotates about the pivot in one step; assign
replaces the matrix.  An operand array of the wrong length is rejected. -/
def BLMatrix2D.applyOp (N : NativeParams) (m : BLMatrix2D) : BLTransformOp → List Dbl → Option BLMatrix2D
  | .BL_TRANSFORM_OP_RESET, [] => some BLMatrix2D.identity
  | .BL_TRANSFORM_OP_ASSIGN, [a, b, c, d, e, f] => some ⟨a, b, c, d, e, f⟩
  | .BL_TRANSFORM_OP_TRANSLATE, [x, y] => some (BLMatrix2D.mul ⟨1, 0, 0, 1, x, y⟩ m)
  | .BL_TRANSFORM_OP_SCALE, [x, y] => some (BLMatrix2D.mul ⟨x, 0, 0, y, 0, 0⟩ m)
  | .BL_TRANSFORM_OP_SKEW, [x, y] => some (BLMatrix2D.mul ⟨1, N.tan y, N.tan x, 1, 0, 0⟩ m)
  | .BL_TRANSFORM_OP_ROTATE, [a] =>
      some (BLMatrix2D.mul ⟨N.cos a, N.sin a, -N.sin a, N.cos a, 0, 0⟩ m)
  | .BL_TRANSFORM_OP_ROTATE_PT, [a, x, y] =>
      some (BLMatrix2D.mul
        ⟨N.cos a, N.sin a, -N.sin a, N.cos a,
         x - N.cos a * x + N.sin a * y, y - N.sin a * x - N.cos a * y⟩ m)
  | .BL_TRANSFORM_OP_TRANSFORM, [a, b, c, d, e, f] => some (BLMatrix2D.mul ⟨a, b, c, d, e, f⟩ m)
  | _, _ => none

/-- Modelled from the spec: the native drawing context, a render target binding
(`none` when detached) plus the current graphics state and the stack of saved
ones, the paint operations queued but not yet completed, and the paint
operations completed so far. -/
structure Context where
  target : Option BLImage
  state : State
  saved : List State
  pending : List NativeCall
  rendered : List NativeCall

/-- Modelled from the spec: a paint operation of the native context is queued
on the bound target; a detached context has nothing to paint on and reports an
invalid state. -/
def Context.paint (c : NativeCall) (ctx : Context) : BLResult × Context :=
  match ctx.target with
  | none => (BL_ERROR_INVALID_STATE, ctx)
  | some _ => (BL_SUCCESS, { ctx with pending := ctx.pending ++ [c] })

/-- Modelled from the spec: a setter of the native context replaces one
attribute of the current graphics state. -/
def Context.set (f : State → State) (ctx : Context) : BLResult × Context :=
  (BL_SUCCESS, { ctx with state := f ctx.state })

/-- Modelled from the spec: a transform operation of the native context acts on
the user transform. -/
def Context.transformOp (N : NativeParams) (op : BLTransformOp) (values : List Dbl) (ctx : Context) :
    BLResult × Context :=
  match ctx.state.userTransform.applyOp N op values with
  | none => (BL_ERROR_INVALID_VALUE, ctx)
  | some m => Context.set (fun s => { s with userTransform := m }) ctx

/-- Modelled from the spec: completion of the queued paint operations. -/
def Context.complete (ctx : Context) : Context :=
  { ctx with rendered := ctx.rendered ++ ctx.pending, pending := [] }

/-- Modelled from the spec: one command of the native context.  `save` pushes
the graphics state and `restore` pops it (reporting an invalid state when
nothing is saved); `flush` in the synchronous mode completes every queued
paint operation; `end` completes them and detaches the context from its target;
`reset` releases the context, leaving it as default constructed. -/
def Context.step (N : NativeParams) : NativeCall → Context → BLResult × Context
  | .end_, ctx => (BL_SUCCESS, { ctx.complete with target := none })
  | .reset, ctx =>
      (BL_SUCCESS, { ctx.complete with target := none, state := N.initial, saved := [] })
  | .save, ctx => (BL_SUCCESS, { ctx with saved := ctx.state :: ctx.saved })
  | .restore, ctx =>
      match ctx.saved with
      | [] => (BL_ERROR_INVALID_STATE, ctx)
      | s :: rest => (BL_SUCCESS, { ctx with state := s, saved := rest })
  | .flush .BL_CONTEXT_FLUSH_SYNC, ctx => (BL_SUCCESS, ctx.complete)
  | .flush .BL_CONTEXT_FLUSH_NO_FLAGS, ctx => (BL_SUCCESS, ctx)
  | .clipToRect rect, ctx => ctx.set fun s => { s with clip := rect :: s.clip }
  | .restoreClipping, ctx =>
      ctx.set fun s => { s with clip := (ctx.saved.head?.map State.clip).getD [] }
  | .resetTransform, ctx => ctx.transformOp N .BL_TRANSFORM_OP_RESET []
  | .rotate angle, ctx => ctx.transformOp N .BL_TRANSFORM_OP_ROTATE [angle]
  | ._applyTransformOp op values, ctx => ctx.transformOp N op values
  | .scale x y, ctx => ctx.transformOp N .BL_TRANSFORM_OP_SCALE [x, y]
  | .skew x y, ctx => ctx.transformOp N .BL_TRANSFORM_OP_SKEW [x, y]
  | .setTransform m, ctx =>
      ctx.transformOp N .BL_TRANSFORM_OP_ASSIGN [m.m00, m.m01, m.m10, m.m11, m.m20, m.m21]
  | .translate x y, ctx => ctx.transformOp N .BL_TRANSFORM_OP_TRANSLATE [x, y]
  | .userToMeta, ctx =>
      ctx.set fun s =>
        { s with metaTransform := s.userTransform.mul s.metaTransform
                 userTransform := BLMatrix2D.identity }
  | .setCompOp op, ctx => ctx.set fun s => { s with compOp := op }
  | .setGlobalAlpha alpha, ctx => ctx.set fun s => { s with globalAlpha := alpha }
  | .setFillAlpha alpha, ctx => ctx.set fun s => { s with fillAlpha := alpha }
  | .setFillRule rule, ctx => ctx.set fun s => { s with fillRule := rule }
  | .setFillStyleRgba32 color, ctx => ctx.set fun s => { s with fillStyle := .solid color }
  | .setFillStyleGradient g, ctx => ctx.set fun s => { s with fillStyle := .gradient g }
  | .setFillStylePattern p, ctx => ctx.set fun s => { s with fillStyle := .pattern p }
  | .setStrokeAlpha alpha, ctx => ctx.set fun s => { s with strokeAlpha := alpha }
  | .setStrokeStyleRgba32 color, ctx => ctx.set fun s => { s with strokeStyle := .solid color }
  | .setStrokeStyleGradient g, ctx => ctx.set fun s => { s with strokeStyle := .gradient g }
  | .setStrokeStylePattern p, ctx => ctx.set fun s => { s with strokeStyle := .pattern p }
  | .setStrokeWidth width, ctx => ctx.set fun s => { s with strokeWidth := width }
  | .setStrokeMiterLimit limit, ctx => ctx.set fun s => { s with strokeMiterLimit := limit }
  | .setStrokeCap position cap, ctx =>
      if position.code = 0 then ctx.set fun s => { s with strokeStartCap := cap }
      else if position.code = 1 then ctx.set fun s => { s with strokeEndCap := cap }
      else (BL_ERROR_INVALID_VALUE, ctx)
  | .setStrokeCaps cap, ctx =>
      ctx.set fun s => { s with strokeStartCap := cap, strokeEndCap := cap }
  | .setStrokeJoin join, ctx => ctx.set fun s => { s with strokeJoin := join }
  | .setStrokeDashOffset offset, ctx => ctx.set fun s => { s with strokeDashOffset := offset }
  | .setStrokeDashArray array, ctx => ctx.set fun s => { s with strokeDashArray := array }
  | .clearAll, ctx => ctx.paint .clearAll
  | .fillAll, ctx => ctx.paint .fillAll
  | .clearRect rect, ctx => ctx.paint (.clearRect rect)
  | .fillRect rect, ctx => ctx.paint (.fillRect rect)
  | .strokeRect rect, ctx => ctx.paint (.strokeRect rect)
  | .fillCircle cx cy r, ctx => ctx.paint (.fillCircle cx cy r)
  | .strokeCircle cx cy r, ctx => ctx.paint (.strokeCircle cx cy r)
  | .fillEllipse cx cy rx ry, ctx => ctx.paint (.fillEllipse cx cy rx ry)
  | .strokeEllipse cx cy rx ry, ctx => ctx.paint (.strokeEllipse cx cy rx ry)
  | .fillPath path, ctx => ctx.paint (.fillPath path)
  | .strokePath path, ctx => ctx.paint (.strokePath path)
  | .fillUtf8Text pt font text size, ctx => ctx.paint (.fillUtf8Text pt font text size)
  | .strokeUtf8Text pt font text size, ctx => ctx.paint (.strokeUtf8Text pt font text size)
  | .blitImagePt pt image, ctx => ctx.paint (.blitImagePt pt image)
  | .blitImagePtArea pt image area, ctx => ctx.paint (.blitImagePtArea pt image area)
  | .blitImageRect rect image, ctx => ctx.paint (.blitImageRect rect image)
  | .blitImageRectArea rect image area, ctx => ctx.paint (.blitImageRectArea rect image area)

/-- Modelled from the spec: the native drawing context as an engine.  Default
construction gives a detached context, construction from an image a context
bound to that image. -/
def blend2d (N : NativeParams) : Engine Context where
  create := { target := none, state := N.initial, saved := [], pending := [], rendered := [] }
  createFor := fun image =>
    { target := some image, state := N.initial, saved := [], pending := [], rendered := [] }
  exec := Context.step N
  metaTransform := fun ctx => ctx.state.metaTransform
  userTransform := fun ctx => ctx.state.userTransform
  compOp := fun ctx => ctx.state.compOp
  globalAlpha := fun ctx => ctx.state.globalAlpha
  fillAlpha := fun ctx => ctx.state.fillAlpha
  fillRule := fun ctx => ctx.state.fillRule
  strokeAlpha := fun ctx => ctx.state.strokeAlpha
  strokeWidth := fun ctx => ctx.state.strokeWidth
  strokeMiterLimit := fun ctx => ctx.state.strokeMiterLimit
  strokeJoin := fun ctx => ctx.state.strokeJoin
  strokeDashOffset := fun ctx => ctx.state.strokeDashOffset

/-! ## Bookkeeping for scope bodies -/

/-- The native calls a scope body issues when it runs: the calls of its
statements up to the first statement that raises. -/
def bodyCalls (H : Common) (body : List Stmt) : List NativeCall :=
  (runBody traceEngine H body []).2

/-- The error that ends a scope body, if any: the error of its first statement
that raises. -/
def bodyError (H : Common) (body : List Stmt) : Option PyErr :=
  (runBody traceEngine H body []).1

/-- Depth of the save stack relative to a starting depth `d`, after a sequence
of native calls: `save` adds one level, `restore` removes one.  The result is
`none` when a `restore` would pop below the starting level or when the context
is torn down (`end`, `reset`). -/
def saveDepth : List NativeCall → Nat → Option Nat
  | [], d => some d
  | .save :: rest, d => saveDepth rest (d + 1)
  | .restore :: rest, d =>
    match d with
    | 0 => none
    | d + 1 => saveDepth rest d
  | .end_ :: _, _ => none
  | .reset :: _, _ => none
  | _ :: rest, d => saveDepth rest d

/-- A concrete colour helper, for closed examples: it packs four integer
components (r, g, b, a) as `0xAARRGGBB` and rejects every other tuple. -/
def sampleCommon : Common where
  _get_rgba32_value := fun t =>
    match t with
    | [.int r, .int g, .int b, .int a] =>
      .ok (a.toNat * 2 ^ 24 + r.toNat * 2 ^ 16 + g.toNat * 2 ^ 8 + b.toNat)
    | _ => .error .ValueError

/-- Concrete parameters of the reference engine, for closed examples: the
trigonometric functions of the angle zero, and a fresh graphics state with
identity transforms, no clip, opaque alpha values, solid black styles and a
stroke width of 1. -/
def sampleParams : NativeParams where
  sin := fun _ => 0
  cos := fun _ => 1
  tan := fun _ => 0
  initial :=
    { metaTransform := BLMatrix2D.identity
      userTransform := BLMatrix2D.identity
      clip := []
      compOp := ⟨0⟩
      globalAlpha := 1
      fillAlpha := 1
      fillRule := ⟨0⟩
      fillStyle := .solid ⟨0xFF000000⟩
      strokeAlpha := 1
      strokeStyle := .solid ⟨0xFF000000⟩
      strokeWidth := 1
      strokeMiterLimit := 4
      strokeStartCap := ⟨0⟩
      strokeEndCap := ⟨0⟩
      strokeJoin := ⟨0⟩
      strokeDashOffset := 0
      strokeDashArray := [] }

/-- Whether an outcome is a normal return. -/
def Outcome.isReturned : Outcome → Bool
  | .returned _ => true
  | .raised _ => false

/-- The values a property holds: a float for the `double` properties, a member
of the property's enumeration for the others. -/
def Property.inDomain : Property → PyObj → Bool
  | .comp_op, .compOp _ => true
  | .fill_rule, .fillRule _ => true
  | .stroke_join, .strokeJoin _ => true
  | .global_alpha, .float _ => true
  | .fill_alpha, .float _ => true
  | .stroke_alpha, .float _ => true
  | .stroke_width, .float _ => true
  | .stroke_miter_limit, .float _ => true
  | .stroke_dash_offset, .float _ => true
  | _, _ => false

/-- The native calls of a resolved operation, `[]` when it raises. -/
def opCalls (H : Common) (op : HostOp) : List NativeCall :=
  match resolve H op with
  | some (.ok lam) => lam.calls
  | _ => []

/-- The native calls of a scope body, computed from the resolution of its
statements. -/
def stmtsCalls (H : Common) : List Stmt → List NativeCall
  | [] => []
  | .raise _ :: _ => []
  | .op o :: rest =>
    match resolve H o with
    | some (.ok lam) => lam.calls ++ stmtsCalls H rest
    | _ => []

/-- The native calls that act on the stack of saved states or tear the context
down. -/
def NativeCall.touchesStack : NativeCall → Bool
  | .save => true
  | .restore => true
  | .end_ => true
  | .reset => true
  | _ => false

/-- The three native fill-style setters. -/
def NativeCall.setsFillStyle : NativeCall → Bool
  | .setFillStyleRgba32 _ => true
  | .setFillStyleGradient _ => true
  | .setFillStylePattern _ => true
  | _ => false

/-- The three native stroke-style setters. -/
def NativeCall.setsStrokeStyle : NativeCall → Bool
  | .setStrokeStyleRgba32 _ => true
  | .setStrokeStyleGradient _ => true
  | .setStrokeStylePattern _ => true
  | _ => false

/-- The host operations that act on the stack of saved states or tear the
context down: `save`, `restore`, `__enter__`, `__exit__` and `__del__`. -/
def HostOp.isLifecycle : HostOp → Bool
  | .call .__del__ _ => true
  | .call .__enter__ _ => true
  | .call .__exit__ _ => true
  | .call .save _ => true
  | .call .restore _ => true
  | _ => false

/-- A statement that is not one of the lifecycle operations. -/
def Stmt.isPlain : Stmt → Bool
  | .op o => !o.isLifecycle
  | .raise _ => true

/-! ## General facts -/

theorem execAll_append {σ : Type} (E : Engine σ) (xs ys : List NativeCall) (s : σ) :
    E.execAll (xs ++ ys) s = E.execAll ys (E.execAll xs s) := by
  induction xs generalizing s with
  | nil => rfl
  | cons c rest ih => simp [Engine.execAll, ih]

theorem execAll_withResults {σ : Type} (E : Engine σ) (r : NativeCall → σ → BLResult)
    (cs : List NativeCall) (s : σ) :
    (E.withResults r).execAll cs s = E.execAll cs s := by
  induction cs generalizing s with
  | nil => rfl
  | cons c rest ih =>
    show (E.withResults r).execAll rest (E.exec c s).2 = E.execAll rest (E.exec c s).2
    exact ih _

theorem read_withResults {σ : Type} (E : Engine σ) (r : NativeCall → σ → BLResult)
    (g : Getter) (s : σ) : (E.withResults r).read g s = E.read g s := by
  cases g <;> rfl

theorem run_withResults {σ : Type} (E : Engine σ) (r : NativeCall → σ → BLResult)
    (lam : Lambda) (s : σ) : lam.run (E.withResults r) s = lam.run E s := by
  unfold Lambda.run
  simp only [execAll_withResults]
  cases lam.ret <;> simp [read_withResults]

theorem invoke_withResults {σ : Type} (E : Engine σ) (H : Common)
    (r : NativeCall → σ → BLResult) (op : HostOp) (s : σ) :
    invoke (E.withResults r) H op s = invoke E H op s := by
  unfold invoke
  cases resolve H op with
  | none => rfl
  | some x =>
    cases x with
    | error e => rfl
    | ok lam => exact run_withResults E r lam s

theorem traceEngine_execAll (cs log : List NativeCall) :
    traceEngine.execAll cs log = log ++ cs := by
  induction cs generalizing log with
  | nil => simp [Engine.execAll]
  | cons c rest ih =>
    show traceEngine.execAll rest (log ++ [c]) = log ++ c :: rest
    rw [ih]
    simp

theorem run_state {σ : Type} (E : Engine σ) (lam : Lambda) (s : σ) :
    (lam.run E s).2 = E.execAll lam.calls s := by
  unfold Lambda.run
  cases lam.ret <;> rfl

theorem invoke_state {σ : Type} (E : Engine σ) (H : Common) (op : HostOp) (s : σ) :
    (invoke E H op s).2 = E.execAll (opCalls H op) s := by
  unfold invoke opCalls
  cases resolve H op with
  | none => rfl
  | some x =>
    cases x with
    | error e => rfl
    | ok lam => exact run_state E lam s

theorem nativeCalls_eq (H : Common) (op : HostOp) : nativeCalls H op = opCalls H op := by
  unfold nativeCalls
  rw [invoke_state, traceEngine_execAll]
  rfl

theorem run_isReturned {σ : Type} (E : Engine σ) (lam : Lambda) (s : σ) :
    (lam.run E s).1.isReturned = true := by
  unfold Lambda.run
  cases lam.ret <;> rfl

theorem invoke_isReturned {σ : Type} (E : Engine σ) (H : Common) (op : HostOp) (s : σ) :
    (invoke E H op s).1.isReturned = (invoke traceEngine H op []).1.isReturned := by
  unfold invoke
  cases resolve H op with
  | none => rfl
  | some x =>
    cases x with
    | error e => rfl
    | ok lam => simp [run_isReturned]

theorem resolve_set_fill_style_tuple (H : Common) (color : List PyAtom) :
    resolve H (.call .set_fill_style [.tuple color])
      = some ((H._get_rgba32_value color).bind fun v =>
          forward (.setFillStyleRgba32 ⟨v % 2 ^ 32⟩)) := rfl

theorem resolve_set_stroke_style_tuple (H : Common) (color : List PyAtom) :
    resolve H (.call .set_stroke_style [.tuple color])
      = some ((H._get_rgba32_value color).bind fun v =>
          forward (.setStrokeStyleRgba32 ⟨v % 2 ^ 32⟩)) := rfl

theorem runBody_state {σ : Type} (E : Engine σ) (H : Common) (body : List Stmt) (s : σ) :
    (runBody E H body s).2 = E.execAll (stmtsCalls H body) s := by
  induction body generalizing s with
  | nil => rfl
  | cons st rest ih =>
    cases st with
    | raise e => rfl
    | op o =>
      simp only [runBody, stmtsCalls, invoke]
      cases hr : resolve H o with
      | none => rfl
      | some x =>
        cases x with
        | error e => rfl
        | ok lam =>
          simp only [execAll_append]
          rw [← ih]
          unfold Lambda.run
          cases lam.ret <;> rfl

theorem bodyCalls_eq (H : Common) (body : List Stmt) : bodyCalls H body = stmtsCalls H body := by
  unfold bodyCalls
  rw [runBody_state, traceEngine_execAll]
  rfl

theorem runBody_error_indep {σ τ : Type} (E : Engine σ) (F : Engine τ) (H : Common)
    (body : List Stmt) :
    ∀ (s : σ) (t : τ), (runBody E H body s).1 = (runBody F H body t).1 := by
  induction body with
  | nil => intro s t; rfl
  | cons st rest ih =>
    intro s t
    cases st with
    | raise e => rfl
    | op o =>
      simp only [runBody, invoke]
      cases hr : resolve H o with
      | none => rfl
      | some x =>
        cases x with
        | error e => rfl
        | ok lam =>
          rcases lam with ⟨calls, ret⟩
          cases ret <;> exact ih _ _

theorem runBody_error {σ : Type} (E : Engine σ) (H : Common) (body : List Stmt) (s : σ) :
    (runBody E H body s).1 = bodyError H body :=
  runBody_error_indep E traceEngine H body s []

/-- The scoped block, by the way its body ends.  A body that raised is followed
by the `restore` of `__exit__` and its error is raised again.  A body that
finished normally is followed by `__exit__(None, None, None)`, which no
registered lambda accepts: the block raises `TypeError` and nothing is
restored. -/
theorem withStmt_eq {σ : Type} (E : Engine σ) (H : Common) (body : List Stmt) (s : σ) :
    withStmt E H body s
      = (match runBody E H body (E.exec .save s).2 with
         | (none, s2) => (.raised .TypeError, s2)
         | (some e, s2) => (.raised e, (E.exec .restore s2).2)) := by
  show (match runBody E H body (E.exec .save s).2 with
        | (none, s2) =>
          match invoke E H (.call .__exit__ [.none, .none, .none]) s2 with
          | (.raised e, s3) => (Outcome.raised e, s3)
          | (.returned _, s3) => (.returned .none, s3)
        | (some e, s2) =>
          match invoke E H (.call .__exit__ [.excType e, .exc e, .traceback 0]) s2 with
          | (.raised e1, s3) => (.raised e1, s3)
          | (.returned v, s3) =>
            if truthy v then (.returned .none, s3) else (.raised e, s3)) = _
  rcases runBody E H body (E.exec .save s).2 with ⟨_ | e, s2⟩ <;> rfl

theorem set_saved (f : State → State) (ctx : Context) :
    (ctx.set f).2.saved = ctx.saved := rfl

theorem transformOp_saved (N : NativeParams) (op : BLTransformOp) (values : List Dbl) (ctx : Context) :
    (ctx.transformOp N op values).2.saved = ctx.saved := by
  unfold Context.transformOp
  cases ctx.state.userTransform.applyOp N op values <;> rfl

theorem paint_saved (c : NativeCall) (ctx : Context) : (ctx.paint c).2.saved = ctx.saved := by
  unfold Context.paint
  cases ctx.target <;> rfl

theorem step_saved (N : NativeParams) (c : NativeCall) (ctx : Context) (h : c.touchesStack = false) :
    (Context.step N c ctx).2.saved = ctx.saved := by
  cases c <;>
    first
    | exact absurd h (by decide)
    | exact set_saved _ _
    | exact transformOp_saved _ _ _ _
    | exact paint_saved _ _
    | skip
  · rename_i flags
    cases flags <;> rfl
  · rename_i position cap
    show (if position.code = 0 then ctx.set _
          else if position.code = 1 then ctx.set _
          else (BL_ERROR_INVALID_VALUE, ctx)).2.saved = ctx.saved
    split_ifs <;> rfl

theorem saveDepth_other (c : NativeCall) (rest : List NativeCall) (d : Nat)
    (h : c.touchesStack = false) : saveDepth (c :: rest) d = saveDepth rest d := by
  cases c <;> first | exact absurd h (by decide) | rfl

theorem balanced_execAll (N : NativeParams) (cs : List NativeCall) :
    ∀ (d d1 : Nat) (ctx : Context) (top : List State) (g : State) (base : List State),
      saveDepth cs d = some d1 → ctx.saved = top ++ g :: base → top.length = d →
      ∃ top1, ((blend2d N).execAll cs ctx).saved = top1 ++ g :: base ∧ top1.length = d1 := by
  induction cs with
  | nil =>
    intro d d1 ctx top g base hd hs hl
    have : d = d1 := by simpa [saveDepth] using hd
    exact ⟨top, hs, this ▸ hl⟩
  | cons c rest ih =>
    intro d d1 ctx top g base hd hs hl
    show ∃ top1, ((blend2d N).execAll rest (Context.step N c ctx).2).saved = top1 ++ g :: base
      ∧ top1.length = d1
    by_cases ht : c.touchesStack = false
    · rw [saveDepth_other c rest d ht] at hd
      exact ih d d1 _ top g base hd (by rw [step_saved N c ctx ht]; exact hs) hl
    · cases c <;> first | exact absurd rfl ht | skip
      · exact absurd hd (by simp [saveDepth])
      · exact absurd hd (by simp [saveDepth])
      · refine ih (d + 1) d1 _ (ctx.state :: top) g base hd ?_ (by simp [hl])
        show ctx.state :: ctx.saved = (ctx.state :: top) ++ g :: base
        rw [hs]
        rfl
      · cases d with
        | zero => exact absurd hd (by simp [saveDepth])
        | succ d0 =>
          cases top with
          | nil => simp at hl
          | cons t top0 =>
            refine ih d0 d1 _ top0 g base hd ?_ (by simpa using hl)
            show (match ctx.saved with
                  | [] => (BL_ERROR_INVALID_STATE, ctx)
                  | s :: rest => (BL_SUCCESS, { ctx with state := s, saved := rest })).2.saved
                = top0 ++ g :: base
            rw [hs]
            rfl

theorem set_fill_style_calls (H : Common) (args : List PyObj) :
    opCalls H (.call .set_fill_style args) = []
    ∨ ∃ c, c.setsFillStyle = true ∧ opCalls H (.call .set_fill_style args) = [c] := by
  rcases args with _ | ⟨a, _ | ⟨b, rest⟩⟩
  · exact Or.inl rfl
  · cases a <;> first | exact Or.inl rfl | (refine Or.inr ⟨_, ?_, rfl⟩; rfl) | skip
    rename_i color
    unfold opCalls
    rw [resolve_set_fill_style_tuple]
    cases H._get_rgba32_value color with
    | error e => exact Or.inl rfl
    | ok v => exact Or.inr ⟨.setFillStyleRgba32 ⟨v % 2 ^ 32⟩, rfl, rfl⟩
  · exact Or.inl rfl

theorem set_stroke_style_calls (H : Common) (args : List PyObj) :
    opCalls H (.call .set_stroke_style args) = []
    ∨ ∃ c, c.setsStrokeStyle = true ∧ opCalls H (.call .set_stroke_style args) = [c] := by
  rcases args with _ | ⟨a, _ | ⟨b, rest⟩⟩
  · exact Or.inl rfl
  · cases a <;> first | exact Or.inl rfl | (refine Or.inr ⟨_, ?_, rfl⟩; rfl) | skip
    rename_i color
    unfold opCalls
    rw [resolve_set_stroke_style_tuple]
    cases H._get_rgba32_value color with
    | error e => exact Or.inl rfl
    | ok v => exact Or.inr ⟨.setStrokeStyleRgba32 ⟨v % 2 ^ 32⟩, rfl, rfl⟩
  · exact Or.inl rfl

theorem step_keeps_strokeStyle (N : NativeParams) (c : NativeCall) (ctx : Context)
    (h : c.setsFillStyle = true) :
    (Context.step N c ctx).2.state.strokeStyle = ctx.state.strokeStyle := by
  cases c <;> first | exact Bool.noConfusion h | rfl

theorem step_keeps_fillStyle (N : NativeParams) (c : NativeCall) (ctx : Context)
    (h : c.setsStrokeStyle = true) :
    (Context.step N c ctx).2.state.fillStyle = ctx.state.fillStyle := by
  cases c <;> first | exact Bool.noConfusion h | rfl

theorem firstAccepting_some (args : List PyObj) (os : List Overload)
    (r : Except PyErr Lambda) (h : firstAccepting args os = some r) :
    ∃ o ∈ os, o args = some r := by
  induction os with
  | nil => simp [firstAccepting] at h
  | cons o rest ih =>
    simp only [firstAccepting] at h
    cases ho : o args with
    | some x =>
      rw [ho] at h
      exact ⟨o, List.mem_cons_self _ _, by rw [ho]; exact h⟩
    | none =>
      rw [ho] at h
      obtain ⟨o1, hmem, h1⟩ := ih h
      exact ⟨o1, List.mem_cons_of_mem _ hmem, h1⟩

/-- Only the lifecycle operations issue `save`, `restore`, `end` or `reset`. -/
theorem resolve_ok_calls (H : Common) (op : HostOp) (lam : Lambda)
    (hop : op.isLifecycle = false) (h : resolve H op = some (.ok lam)) :
    lam.calls.all (fun c => !c.touchesStack) = true := by
  cases op with
  | getattr p =>
    simp only [resolve, Option.some.injEq, Except.ok.injEq] at h
    subst h
    cases p <;> rfl
  | setattr p v =>
    simp only [resolve] at h
    cases p <;> simp [setter, forward, Option.bind_eq_some] at h <;>
      (obtain ⟨_, _, h⟩ := h; subst h; rfl)
  | call m args =>
    obtain ⟨o, ho, h⟩ := firstAccepting_some args (overloads H m) _ h
    cases m <;> first | exact Bool.noConfusion hop | skip
    all_goals
      simp only [overloads, List.mem_cons, List.mem_singleton, List.not_mem_nil, or_false] at ho
    all_goals
      rcases ho with rfl | rfl | rfl | rfl
    all_goals
      simp only [] at h
      split at h <;>
        first
        | exact Option.noConfusion h
        | (simp only [forward, Option.some.injEq, Except.ok.injEq] at h; subst h; rfl)
        | (simp [forward, Option.bind_eq_some] at h
           repeat obtain ⟨_, _, h⟩ := h
           first
           | rfl
           | (rename_i t _
              cases hh : H._get_rgba32_value t with
              | error e => rw [hh] at h; cases h
              | ok v => rw [hh] at h; cases h; rfl))

theorem saveDepth_plain (cs : List NativeCall) (d : Nat)
    (h : cs.all (fun c => !c.touchesStack) = true) : saveDepth cs d = some d := by
  induction cs with
  | nil => rfl
  | cons c rest ih =>
    simp only [List.all_cons, Bool.and_eq_true, Bool.not_eq_true'] at h
    rw [saveDepth_other c rest d h.1]
    exact ih h.2

theorem stmtsCalls_plain (H : Common) (body : List Stmt)
    (h : body.all Stmt.isPlain = true) :
    (stmtsCalls H body).all (fun c => !c.touchesStack) = true := by
  induction body with
  | nil => rfl
  | cons st rest ih =>
    simp only [List.all_cons, Bool.and_eq_true] at h
    cases st with
    | raise e => rfl
    | op o =>
      simp only [stmtsCalls]
      cases hr : resolve H o with
      | none => rfl
      | some x =>
        cases x with
        | error e => rfl
        | ok lam =>
          simp only [List.all_append, Bool.and_eq_true]
          refine ⟨resolve_ok_calls H o lam ?_ hr, ih h.2⟩
          simpa [Stmt.isPlain] using h.1

/-- A scope body without `save`, `restore`, `__enter__`, `__exit__` and
`__del__` keeps saves and restores balanced. -/
theorem plain_body_balanced (H : Common) (body : List Stmt)
    (h : body.all Stmt.isPlain = true) : saveDepth (bodyCalls H body) 0 = some 0 := by
  rw [bodyCalls_eq]
  exact saveDepth_plain _ 0 (stmtsCalls_plain H body h)

/-! ## The claims -/

/-- C7. `blit_image` overload dispatch: each of the four argument shapes
(point, image), (point, image, area), (rect, image), (rect, image, area) issues
exactly one native call, the native blit of the same destination shape, with the
supplied arguments in the supplied order; the two-argument forms pass no source
area and the three-argument forms pass the given area unchanged.  This holds on
the recording engine (the list of native calls) and, as an effect, on every
engine. -/
theorem blit_image_dispatch {σ : Type} (E : Engine σ) (H : Common) (s : σ)
    (pt : BLPoint) (rect : BLRect) (image : BLImage) (area : BLRectI) :
    (nativeCalls H (.call .blit_image [.point pt, .image image])
        = [.blitImagePt pt image]
      ∧ nativeCalls H (.call .blit_image [.point pt, .image image, .rectI area])
        = [.blitImagePtArea pt image area]
      ∧ nativeCalls H (.call .blit_image [.rect rect, .image image])
        = [.blitImageRect rect image]
      ∧ nativeCalls H (.call .blit_image [.rect rect, .image image, .rectI area])
        = [.blitImageRectArea rect image area])
    ∧ (invoke E H (.call .blit_image [.point pt, .image image]) s
        = (.returned .none, (E.exec (.blitImagePt pt image) s).2)
      ∧ invoke E H (.call .blit_image [.point pt, .image image, .rectI area]) s
        = (.returned .none, (E.exec (.blitImagePtArea pt image area) s).2)
      ∧ invoke E H (.call .blit_image [.rect rect, .image image]) s
        = (.returned .none, (E.exec (.blitImageRect rect image) s).2)
      ∧ invoke E H (.call .blit_image [.rect rect, .image image, .rectI area]) s
        = (.returned .none, (E.exec (.blitImageRectArea rect image area) s).2)) :=
  ⟨⟨rfl, rfl, rfl, rfl⟩, rfl, rfl, rfl, rfl⟩

/-- C10, evaluated on the code.  `__exit__` is registered with three
`nb::object` parameters and no `.none()` annotation, so the no-error triple
`(None, None, None)` is rejected: the call raises `TypeError`, issues no native
call and leaves the context as it was, and a scoped block whose body finished
normally ends in `TypeError` with the state saved by `__enter__` still on the
stack.  On an error triple `__exit__` issues the single native `restore` and
returns `None`, which is not a true value, so the error of a scope body is
raised again; `__enter__` returns the context it was called on. -/
theorem exit_rejects_no_error_triple {σ : Type} (E : Engine σ) (H : Common) (s : σ)
    (e : PyErr) (n : Nat) (body : List Stmt) :
    nativeCalls H (.call .__exit__ [.none, .none, .none]) = []
    ∧ invoke E H (.call .__exit__ [.none, .none, .none]) s = (.raised .TypeError, s)
    ∧ withStmt E H [] s = (.raised .TypeError, (E.exec .save s).2)
    ∧ (withStmt (blend2d sampleParams) sampleCommon
        [.op (.setattr .stroke_width (.float 5))]
        (invoke (blend2d sampleParams) sampleCommon (.setattr .stroke_width (.float 2))
          ((blend2d sampleParams).createFor ⟨0⟩)).2).1 = .raised .TypeError
    ∧ (withStmt (blend2d sampleParams) sampleCommon
        [.op (.setattr .stroke_width (.float 5))]
        (invoke (blend2d sampleParams) sampleCommon (.setattr .stroke_width (.float 2))
          ((blend2d sampleParams).createFor ⟨0⟩)).2).2.state.strokeWidth = 5
    ∧ nativeCalls H (.call .__exit__ [.excType e, .exc e, .traceback n]) = [.restore]
    ∧ invoke E H (.call .__exit__ [.excType e, .exc e, .traceback n]) s
        = (.returned .none, (E.exec .restore s).2)
    ∧ truthy .none = false
    ∧ (invoke E H (.call .__enter__ []) s).1 = .returned .self
    ∧ withStmt E H body s
        = (match runBody E H body (E.exec .save s).2 with
           | (none, s2) => (.raised .TypeError, s2)
           | (some e, s2) => (.raised e, (E.exec .restore s2).2)) :=
  ⟨rfl, rfl, rfl, by decide, by decide, rfl, rfl, rfl, rfl, withStmt_eq E H body s⟩

/-- C3. `transform(matrix)` replaces the user transform: it issues the native
`setTransform` with the given matrix, and on the reference engine, for every
context and all matrices `M1`, `M2`, `get_user_transform()` after
`transform(M1); transform(M2)` returns `M2`, and after a single `transform(M)`
returns `M`, whatever the user transform was before. -/
theorem transform_replaces (N : NativeParams) (H : Common) (ctx : Context) (M1 M2 : BLMatrix2D) :
    nativeCalls H (.call .transform [.matrix M2]) = [.setTransform M2]
    ∧ (invoke (blend2d N) H (.call .get_user_transform [])
        (invoke (blend2d N) H (.call .transform [.matrix M2])
          (invoke (blend2d N) H (.call .transform [.matrix M1]) ctx).2).2).1
        = .returned (.matrix M2)
    ∧ (invoke (blend2d N) H (.call .get_user_transform [])
        (invoke (blend2d N) H (.call .transform [.matrix M2]) ctx).2).1
        = .returned (.matrix M2) :=
  ⟨rfl, rfl, rfl⟩

/-- C6. Teardown order: `__del__` issues the native `end` and then the native
`reset`, the second whatever the first reported; on the reference engine the
queue of pending paint operations is already empty after the first step, and
after teardown the context has no pending operation and no target, every
operation that was pending has been completed, for every prior state of the
context, a default-constructed one included. -/
theorem teardown_order {σ : Type} (E : Engine σ) (N : NativeParams) (H : Common) (s : σ)
    (ctx : Context) :
    nativeCalls H (.call .__del__ []) = [.end_, .reset]
    ∧ invoke E H (.call .__del__ []) s
        = (.returned .none, (E.exec .reset (E.exec .end_ s).2).2)
    ∧ ((blend2d N).exec .end_ ctx).2.pending = []
    ∧ (invoke (blend2d N) H (.call .__del__ []) ctx).2.pending = []
    ∧ (invoke (blend2d N) H (.call .__del__ []) ctx).2.target = none
    ∧ (invoke (blend2d N) H (.call .__del__ []) ctx).2.rendered = ctx.rendered ++ ctx.pending
    ∧ (invoke (blend2d N) H (.call .__del__ []) (blend2d N).create).2.pending = []
    ∧ (invoke (blend2d N) H (.call .__del__ []) (blend2d N).create).2.target = none := by
  refine ⟨rfl, rfl, rfl, rfl, rfl, ?_, rfl, rfl⟩
  show (ctx.rendered ++ ctx.pending) ++ [] = ctx.rendered ++ ctx.pending
  simp

/-- C9. Synchronous flush: `flush()` issues the native flush with the
synchronous mode; on the reference engine, for every context state, no paint
operation is pending when it returns and those that were pending are
completed; in particular after constructing a context bound to an image,
`fill_all`, `set_fill_style` with a colour tuple, `fill_rect` and `flush`, no
operation is pending and the two paint operations are completed in order. -/
theorem flush_synchronous (N : NativeParams) (H : Common) (ctx : Context) (image : BLImage)
    (color : List PyAtom) (rect : BLRect) :
    nativeCalls H (.call .flush []) = [.flush .BL_CONTEXT_FLUSH_SYNC]
    ∧ (invoke (blend2d N) H (.call .flush []) ctx).1 = .returned .none
    ∧ (invoke (blend2d N) H (.call .flush []) ctx).2.pending = []
    ∧ (invoke (blend2d N) H (.call .flush []) ctx).2.rendered = ctx.rendered ++ ctx.pending
    ∧ construct (blend2d N) [.image image] = some ((blend2d N).createFor image)
    ∧ (invoke (blend2d N) H (.call .flush [])
        (invoke (blend2d N) H (.call .fill_rect [.rect rect])
          (invoke (blend2d N) H (.call .set_fill_style [.tuple color])
            (invoke (blend2d N) H (.call .fill_all [])
              ((blend2d N).createFor image)).2).2).2).2.pending = []
    ∧ (invoke (blend2d N) H (.call .flush [])
        (invoke (blend2d N) H (.call .fill_rect [.rect rect])
          (invoke (blend2d N) H (.call .set_fill_style [.tuple color])
            (invoke (blend2d N) H (.call .fill_all [])
              ((blend2d N).createFor image)).2).2).2).2.rendered
        = [.fillAll, .fillRect rect] := by
  refine ⟨rfl, rfl, rfl, rfl, rfl, rfl, ?_⟩
  rw [invoke_state, invoke_state, invoke_state, invoke_state]
  show ((blend2d N).execAll [.flush .BL_CONTEXT_FLUSH_SYNC]
        ((blend2d N).execAll [.fillRect rect]
          ((blend2d N).execAll (opCalls H (.call .set_fill_style [.tuple color]))
            ((blend2d N).execAll [.fillAll] ((blend2d N).createFor image))))).rendered = _
  have h : opCalls H (.call .set_fill_style [.tuple color]) = []
      ∨ ∃ v, opCalls H (.call .set_fill_style [.tuple color]) = [.setFillStyleRgba32 v] := by
    unfold opCalls
    rw [resolve_set_fill_style_tuple]
    cases H._get_rgba32_value color with
    | error e => exact Or.inl rfl
    | ok v => exact Or.inr ⟨_, rfl⟩
  rcases h with h | ⟨v, h⟩ <;> rw [h] <;> rfl

/-- C1, as stated, fails.  Take a context bound to an image whose stroke width
has been set to 2.  The scope body `stroke_width = 5; save(); raise ValueError`
leaves the stroke width at 5 after `__exit__`: the `restore` of `__exit__` pops
the state the body itself saved, not the one `__enter__` saved. -/
theorem scoped_save_restore_unbalanced :
    (invoke (blend2d sampleParams) sampleCommon (.setattr .stroke_width (.float 2))
        ((blend2d sampleParams).createFor ⟨0⟩)).2.state.strokeWidth = 2
    ∧ (withStmt (blend2d sampleParams) sampleCommon
        [.op (.setattr .stroke_width (.float 5)), .op (.call .save []), .raise .ValueError]
        (invoke (blend2d sampleParams) sampleCommon (.setattr .stroke_width (.float 2))
          ((blend2d sampleParams).createFor ⟨0⟩)).2).1 = .raised .ValueError
    ∧ (withStmt (blend2d sampleParams) sampleCommon
        [.op (.setattr .stroke_width (.float 5)), .op (.call .save []), .raise .ValueError]
        (invoke (blend2d sampleParams) sampleCommon (.setattr .stroke_width (.float 2))
          ((blend2d sampleParams).createFor ⟨0⟩)).2).2.state.strokeWidth = 5
    ∧ (withStmt (blend2d sampleParams) sampleCommon
        [.op (.setattr .stroke_width (.float 5)), .op (.call .save []), .raise .ValueError]
        (invoke (blend2d sampleParams) sampleCommon (.setattr .stroke_width (.float 2))
          ((blend2d sampleParams).createFor ⟨0⟩)).2).2.state
      ≠ (invoke (blend2d sampleParams) sampleCommon (.setattr .stroke_width (.float 2))
          ((blend2d sampleParams).createFor ⟨0⟩)).2.state := by
  decide

/-- C1, amended.  Take a scope body that raises an error `e`.  On every engine
the scoped block raises `e` again and ends in the state reached by the native
`save`, the body, and the native `restore`.  On the reference engine, for every
context, if moreover the run of the body keeps saves and restores balanced
(every `restore` it runs pops a state it pushed itself, every state it pushed is
popped by the time it raises, and it does not tear the context down), the
graphics state and the stack of saved states after the block equal those before
it. -/
theorem scoped_save_restore {σ : Type} (E : Engine σ) (s : σ) (N : NativeParams) (H : Common)
    (body : List Stmt) (ctx : Context) (e : PyErr)
    (hraise : bodyError H body = some e)
    (hbal : saveDepth (bodyCalls H body) 0 = some 0) :
    withStmt E H body s
      = (.raised e, (E.exec .restore (runBody E H body (E.exec .save s).2).2).2)
    ∧ (withStmt (blend2d N) H body ctx).1 = .raised e
    ∧ (withStmt (blend2d N) H body ctx).2.state = ctx.state
    ∧ (withStmt (blend2d N) H body ctx).2.saved = ctx.saved := by
  have hgen : ∀ {τ : Type} (F : Engine τ) (t : τ),
      withStmt F H body t
        = (.raised e, (F.exec .restore (runBody F H body (F.exec .save t).2).2).2) := by
    intro τ F t
    rw [withStmt_eq]
    have herr := runBody_error F H body (F.exec .save t).2
    rw [hraise] at herr
    rcases hrun : runBody F H body (F.exec .save t).2 with ⟨err, t2⟩
    rw [hrun] at herr
    cases herr
    rfl
  have hst := hgen (blend2d N) ctx
  rw [bodyCalls_eq] at hbal
  obtain ⟨top1, hsaved, hlen⟩ :=
    balanced_execAll N (stmtsCalls H body) 0 0 ((blend2d N).exec .save ctx).2 [] ctx.state
      ctx.saved hbal rfl rfl
  have htop : top1 = [] := List.length_eq_zero.mp hlen
  subst htop
  rw [← runBody_state] at hsaved
  have hpop : ∀ c : Context, c.saved = ctx.state :: ctx.saved →
      (Context.step N .restore c).2.state = ctx.state
      ∧ (Context.step N .restore c).2.saved = ctx.saved := by
    intro c hc
    show (match c.saved with
          | [] => (BL_ERROR_INVALID_STATE, c)
          | s :: rest => (BL_SUCCESS, { c with state := s, saved := rest })).2.state = ctx.state
      ∧ (match c.saved with
          | [] => (BL_ERROR_INVALID_STATE, c)
          | s :: rest => (BL_SUCCESS, { c with state := s, saved := rest })).2.saved = ctx.saved
    rw [hc]
    exact ⟨rfl, rfl⟩
  refine ⟨hgen E s, ?_, ?_, ?_⟩
  · rw [hst]
  · rw [hst]
    exact (hpop _ hsaved).1
  · rw [hst]
    exact (hpop _ hsaved).2

/-- Witness for C1: a body that writes two properties, saves and restores once
in between, and then raises. -/
theorem scoped_save_restore_witness :
    bodyError sampleCommon
        [.op (.setattr .stroke_width (.float 5)), .op (.call .save []),
         .op (.setattr .global_alpha (.float (1 / 2))), .op (.call .restore []),
         .raise .ValueError] = some .ValueError
    ∧ saveDepth (bodyCalls sampleCommon
        [.op (.setattr .stroke_width (.float 5)), .op (.call .save []),
         .op (.setattr .global_alpha (.float (1 / 2))), .op (.call .restore []),
         .raise .ValueError]) 0 = some 0
    ∧ (withStmt (blend2d sampleParams) sampleCommon
        [.op (.setattr .stroke_width (.float 5)), .op (.call .save []),
         .op (.setattr .global_alpha (.float (1 / 2))), .op (.call .restore []),
         .raise .ValueError]
        ((blend2d sampleParams).createFor ⟨0⟩)).2.state
      = ((blend2d sampleParams).createFor ⟨0⟩).state :=
  ⟨by decide, by decide,
   (scoped_save_restore traceEngine [] sampleParams sampleCommon
      [.op (.setattr .stroke_width (.float 5)), .op (.call .save []),
       .op (.setattr .global_alpha (.float (1 / 2))), .op (.call .restore []),
       .raise .ValueError]
      ((blend2d sampleParams).createFor ⟨0⟩) .ValueError (by decide) (by decide)).2.2.1⟩

/-- C2, as stated, fails.  On the engine whose native calls all report a
failure, `fill_rect` issues the native `fillRect`, which reports a failure, and
returns `None` normally.  Likewise on a default-constructed context of the
reference engine the native `restore` reports a failure (nothing is saved) and
the native `fillRect` reports a failure (no target), yet the bound `restore` and
`fill_rect` return `None` normally. -/
theorem failure_not_surfaced :
    (nativeCalls sampleCommon (.call .fill_rect [.rect ⟨0, 0, 1, 1⟩])).length = 1
    ∧ (failingEngine.exec (.fillRect ⟨0, 0, 1, 1⟩) []).1 ≠ BL_SUCCESS
    ∧ (invoke failingEngine sampleCommon (.call .fill_rect [.rect ⟨0, 0, 1, 1⟩]) []).1
        = .returned .none
    ∧ ((blend2d sampleParams).exec .restore (blend2d sampleParams).create).1 ≠ BL_SUCCESS
    ∧ (invoke (blend2d sampleParams) sampleCommon (.call .restore [])
        (blend2d sampleParams).create).1 = .returned .none
    ∧ ((blend2d sampleParams).exec (.fillRect ⟨0, 0, 1, 1⟩) (blend2d sampleParams).create).1
        ≠ BL_SUCCESS
    ∧ (invoke (blend2d sampleParams) sampleCommon (.call .fill_rect [.rect ⟨0, 0, 1, 1⟩])
        (blend2d sampleParams).create).1 = .returned .none := by
  decide

/-- C2, amended.  Every bound operation discards the result code of the native
calls it wraps: on every engine, its outcome and its effect on the context are
the same whatever result codes the native calls report; whether it returns
normally is the same on every engine and in every state as on the engine whose
calls all succeed; and `fill_rect`, `clip_to_rect`, `restore`, `blit_image` and
`set_stroke_dash_array`, given arguments of their parameter types, return `None`
on every engine. -/
theorem native_result_discarded {σ : Type} (E : Engine σ) (H : Common)
    (r : NativeCall → σ → BLResult) (op : HostOp) (s : σ)
    (rect : BLRect) (pt : BLPoint) (image : BLImage) (array : List Dbl) :
    invoke (E.withResults r) H op s = invoke E H op s
    ∧ (invoke E H op s).1.isReturned = (invoke traceEngine H op []).1.isReturned
    ∧ (invoke E H (.call .fill_rect [.rect rect]) s).1 = .returned .none
    ∧ (invoke E H (.call .clip_to_rect [.rect rect]) s).1 = .returned .none
    ∧ (invoke E H (.call .restore []) s).1 = .returned .none
    ∧ (invoke E H (.call .blit_image [.point pt, .image image]) s).1 = .returned .none
    ∧ (invoke E H (.call .set_stroke_dash_array [.array array]) s).1 = .returned .none :=
  ⟨invoke_withResults E H r op s, invoke_isReturned E H op s, rfl, rfl, rfl, rfl, rfl⟩

/-- C4. Property round trip: on the reference engine, for every context, every
read/write property `p` among `comp_op`, `global_alpha`, `fill_alpha`,
`fill_rule`, `stroke_alpha`, `stroke_width`, `stroke_miter_limit`, `stroke_join`
and `stroke_dash_offset`, and every value `v` in the domain of `p`, writing `v`
to `p` succeeds and reading `p` afterwards returns `v`. -/
theorem property_round_trip (N : NativeParams) (H : Common) (ctx : Context) (p : Property) (v : PyObj)
    (hv : p.inDomain v = true) :
    (invoke (blend2d N) H (.setattr p v) ctx).1 = .returned .none
    ∧ (invoke (blend2d N) H (.getattr p) (invoke (blend2d N) H (.setattr p v) ctx).2).1
        = .returned v := by
  cases p <;> cases v <;> first | exact Bool.noConfusion hv | exact ⟨rfl, rfl⟩

/-- Witness for C4: the stroke width 5 written to a bound context. -/
theorem property_round_trip_witness :
    Property.inDomain .stroke_width (.float 5) = true
    ∧ (invoke (blend2d sampleParams) sampleCommon (.getattr .stroke_width)
        (invoke (blend2d sampleParams) sampleCommon (.setattr .stroke_width (.float 5))
          ((blend2d sampleParams).createFor ⟨0⟩)).2).1 = .returned (.float 5) :=
  ⟨rfl, (property_round_trip sampleParams sampleCommon ((blend2d sampleParams).createFor ⟨0⟩)
    .stroke_width (.float 5) rfl).2⟩

/-- C8. Style dispatch: `set_fill_style` and `set_stroke_style` issue the native
setter of their own style slot and of the variant of the argument.  A colour
tuple goes through the colour helper, the result is truncated to 32 bits and
passed as a solid colour (no native call is made when the helper raises); a
gradient is passed as that gradient and a pattern as that pattern.  Whatever
its arguments, `set_fill_style` issues only native fill-style setters and leaves
the stroke style of the reference engine unchanged, and `set_stroke_style`
issues only native stroke-style setters and leaves the fill style unchanged. -/
theorem style_dispatch (N : NativeParams) (H : Common) (ctx : Context) (color : List PyAtom)
    (gradient : BLGradient) (pattern : BLPattern) (args : List PyObj) :
    (nativeCalls H (.call .set_fill_style [.tuple color])
        = (match H._get_rgba32_value color with
           | .ok v => [.setFillStyleRgba32 ⟨v % 2 ^ 32⟩]
           | .error _ => [])
      ∧ nativeCalls H (.call .set_fill_style [.gradient gradient])
        = [.setFillStyleGradient gradient]
      ∧ nativeCalls H (.call .set_fill_style [.pattern pattern])
        = [.setFillStylePattern pattern]
      ∧ nativeCalls H (.call .set_stroke_style [.tuple color])
        = (match H._get_rgba32_value color with
           | .ok v => [.setStrokeStyleRgba32 ⟨v % 2 ^ 32⟩]
           | .error _ => [])
      ∧ nativeCalls H (.call .set_stroke_style [.gradient gradient])
        = [.setStrokeStyleGradient gradient]
      ∧ nativeCalls H (.call .set_stroke_style [.pattern pattern])
        = [.setStrokeStylePattern pattern])
    ∧ ((invoke (blend2d N) H (.call .set_fill_style [.tuple color]) ctx).2.state.fillStyle
        = (match H._get_rgba32_value color with
           | .ok v => .solid ⟨v % 2 ^ 32⟩
           | .error _ => ctx.state.fillStyle)
      ∧ (invoke (blend2d N) H (.call .set_fill_style [.gradient gradient]) ctx).2.state.fillStyle
        = .gradient gradient
      ∧ (invoke (blend2d N) H (.call .set_fill_style [.pattern pattern]) ctx).2.state.fillStyle
        = .pattern pattern
      ∧ (invoke (blend2d N) H (.call .set_stroke_style [.tuple color]) ctx).2.state.strokeStyle
        = (match H._get_rgba32_value color with
           | .ok v => .solid ⟨v % 2 ^ 32⟩
           | .error _ => ctx.state.strokeStyle)
      ∧ (invoke (blend2d N) H (.call .set_stroke_style [.gradient gradient]) ctx).2.state.strokeStyle
        = .gradient gradient
      ∧ (invoke (blend2d N) H (.call .set_stroke_style [.pattern pattern]) ctx).2.state.strokeStyle
        = .pattern pattern)
    ∧ ((nativeCalls H (.call .set_fill_style args)).all NativeCall.setsFillStyle = true
      ∧ (nativeCalls H (.call .set_stroke_style args)).all NativeCall.setsStrokeStyle = true
      ∧ (invoke (blend2d N) H (.call .set_fill_style args) ctx).2.state.strokeStyle
        = ctx.state.strokeStyle
      ∧ (invoke (blend2d N) H (.call .set_stroke_style args) ctx).2.state.fillStyle
        = ctx.state.fillStyle) := by
  refine ⟨⟨?_, rfl, rfl, ?_, rfl, rfl⟩, ⟨?_, rfl, rfl, ?_, rfl, rfl⟩, ?_, ?_, ?_, ?_⟩
  · rw [nativeCalls_eq]
    unfold opCalls
    rw [resolve_set_fill_style_tuple]
    cases H._get_rgba32_value color <;> rfl
  · rw [nativeCalls_eq]
    unfold opCalls
    rw [resolve_set_stroke_style_tuple]
    cases H._get_rgba32_value color <;> rfl
  · rw [invoke_state]
    unfold opCalls
    rw [resolve_set_fill_style_tuple]
    cases H._get_rgba32_value color <;> rfl
  · rw [invoke_state]
    unfold opCalls
    rw [resolve_set_stroke_style_tuple]
    cases H._get_rgba32_value color <;> rfl
  · rw [nativeCalls_eq]
    rcases set_fill_style_calls H args with h | ⟨c, hc, h⟩
    · rw [h]; rfl
    · rw [h]; simp [hc]
  · rw [nativeCalls_eq]
    rcases set_stroke_style_calls H args with h | ⟨c, hc, h⟩
    · rw [h]; rfl
    · rw [h]; simp [hc]
  · rw [invoke_state]
    rcases set_fill_style_calls H args with h | ⟨c, hc, h⟩
    · rw [h]; rfl
    · rw [h]; exact step_keeps_strokeStyle N c ctx hc
  · rw [invoke_state]
    rcases set_stroke_style_calls H args with h | ⟨c, hc, h⟩
    · rw [h]; rfl
    · rw [h]; exact step_keeps_fillStyle N c ctx hc

end Blend2D
